import Mathlib

/-!
Shallow embedding of the MFEM dual-residency memory manager
(`general/mem_manager.cpp`): the residency ledger (memory map and alias
map), the per-buffer flags bitfield, and the coherence operations
`Insert`, `InsertDevice`, `Erase`, `InsertAlias`, `EraseAlias`,
`GetDevicePtr`, `GetAliasDevicePtr`, `PullKnown`, `PullAlias`,
`Read_`, `Write_`, `ReadWrite_`, `Copy_`, `New_`.

Pointers are modelled as natural numbers, with `0` playing the role of
`NULL`.  Backend calls (`CuMemAlloc`, `CuMemFree`, `CuMemcpyHtoD`,
`CuMemcpyDtoH`, `CuMemcpyDtoD`, `std::memcpy`) are recorded as events.
Fatal paths (`mfem_error`, a failing `MFEM_VERIFY`, and
`std::unordered_map::at` on a missing key, which throws and terminates)
are modelled as `Except.error`.  Debug-only `MFEM_ASSERT` checks are
compiled out in release builds and are not modelled.  Device allocation
(`CuMemAlloc`) draws a fresh address from the `nextDev` counter carried
in the ledger state.

The `unsigned flags` bitfield of class `Memory<T>` (bits `REGISTERED`,
`OWNS_HOST`, `OWNS_DEVICE`, `OWNS_INTERNAL`, `VALID_HOST`,
`VALID_DEVICE`, `USE_DEVICE`, `ALIAS`, declared in the memory-manager
header) is modelled as a record of eight booleans; `flags | BIT` and
`flags & ~BIT` become setting the corresponding field.
-/

namespace MemManager

/-- The `mfem::MemoryType` enumeration. -/
inductive MemoryType
  | HOST
  | HOST_32
  | HOST_64
  | HOST_MMU
  | CUDA
  | CUDA_UVM
  deriving DecidableEq, Repr

/-- The `mfem::MemoryClass` enumeration. -/
inductive MemoryClass
  | HOST
  | HOST_32
  | HOST_64
  | HOST_MMU
  | CUDA
  | CUDA_UVM
  deriving DecidableEq, Repr

/-- The per-buffer `unsigned flags` bitfield of `class Memory<T>`:
one boolean per bit. -/
structure Flags where
  registered : Bool := false
  owns_host : Bool := false
  owns_device : Bool := false
  owns_internal : Bool := false
  valid_host : Bool := false
  valid_device : Bool := false
  use_device : Bool := false
  is_alias : Bool := false
  deriving DecidableEq, Repr

/-- `internal::Memory`: one ledger record per registered host address.
`d_ptr` is `none` while no device storage exists. -/
structure Memory where
  host : Bool
  bytes : Nat
  h_ptr : Nat
  d_ptr : Option Nat
  managed : Bool
  deriving DecidableEq, Repr

/-- The `internal::Memory(h, size)` constructor:
`host(true), bytes(size), h_ptr(h), d_ptr(nullptr), managed(false)`. -/
def mkMemory (h : Nat) (size : Nat) : Memory :=
  { host := true, bytes := size, h_ptr := h, d_ptr := none, managed := false }

/-- `internal::Alias`: `mem` is the key (that is, the `h_ptr`) of the base
`Memory` record in the memory map — the C++ record stores a direct
pointer to that map entry, and the map holds exactly one entry per key,
so pointer identity coincides with key identity. -/
structure AliasRec where
  mem : Nat
  offset : Int
  counter : Nat
  deriving DecidableEq, Repr

/-- A map keyed by addresses, as `std::unordered_map`: at most one entry
per key. -/
def PtrMap (α : Type) : Type := Nat → Option α

/-- Point update of a `PtrMap` (covers `emplace` on a fresh key, `erase`
via `none`, and in-place mutation of a found record). -/
def PtrMap.set {α : Type} (m : PtrMap α) (k : Nat) (v : Option α) : PtrMap α :=
  fun q => if q = k then v else m q

/-- The empty map. -/
def PtrMap.empty {α : Type} : PtrMap α := fun _ => none

/-- `internal::Ledger` (the two registries), plus the `nextDev` counter
modelling the device allocator's supply of fresh addresses. -/
structure Ledger where
  memories : PtrMap Memory
  aliases : PtrMap AliasRec
  nextDev : Nat

/-- An initial ledger: both maps empty; fresh device addresses start at a
nonzero value, as a real allocator never returns `NULL`. -/
def Ledger.empty : Ledger :=
  { memories := PtrMap.empty, aliases := PtrMap.empty, nextDev := 1 }

/-- One backend call, as observed at the boundary between the manager and
the allocation/copy backends.  Copy events carry destination address,
source address and byte count; device-side addresses may include an
alias offset and are therefore `Int`. -/
inductive Event
  | cuMemAlloc (base_key : Nat) (d_ptr : Nat) (bytes : Nat)
  | cuMemFree (d_ptr : Nat)
  | cuMemcpyHtoD (dst : Int) (src : Int) (bytes : Nat)
  | cuMemcpyDtoH (dst : Int) (src : Int) (bytes : Nat)
  | cuMemcpyDtoD (dst : Int) (src : Int) (bytes : Nat)
  | memcpyHtoH (dst : Int) (src : Int) (bytes : Nat)
  deriving DecidableEq, Repr

/-- The four concrete copy routes of the cross-buffer copy table. -/
inductive Route
  | h2h
  | h2d
  | d2h
  | d2d
  deriving DecidableEq, Repr

/-- The copy route of an event, `none` for allocation and deallocation
events (which move no data between spaces). -/
def Event.routeOf : Event → Option Route
  | .memcpyHtoH _ _ _ => some .h2h
  | .cuMemcpyHtoD _ _ _ => some .h2d
  | .cuMemcpyDtoH _ _ _ => some .d2h
  | .cuMemcpyDtoD _ _ _ => some .d2d
  | .cuMemAlloc _ _ _ => none
  | .cuMemFree _ => none

/-- Whether an event moves data (any of the four copy routes). -/
def Event.isCopy (e : Event) : Bool := e.routeOf.isSome

/-- `MemoryManager::Insert(h_ptr, bytes)`: a `NULL` host pointer is a
pass-through requiring `bytes == 0`; a fresh address gets a new
host-resident record; an already present address is fatal. -/
def Insert (st : Ledger) (h_ptr : Nat) (bytes : Nat) :
    Except String (Nat × Ledger) :=
  if h_ptr = 0 then
    if bytes = 0 then .ok (0, st)
    else .error "Trying to add NULL with size"
  else
    match st.memories h_ptr with
    | some _ => .error "Trying to add an already present address!"
    | none =>
        .ok (h_ptr,
          { st with memories := st.memories.set h_ptr (some (mkMemory h_ptr bytes)) })

/-- `MemoryManager::InsertDevice(d_ptr, h_ptr, bytes)`: both pointers must
be non-`NULL`; an already present host address is fatal; otherwise the
new record carries the given device pointer. -/
def InsertDevice (st : Ledger) (d_ptr : Nat) (h_ptr : Nat) (bytes : Nat) :
    Except String Ledger :=
  if d_ptr = 0 then .error "cannot register NULL device pointer"
  else if h_ptr = 0 then .error "internal error"
  else
    match st.memories h_ptr with
    | some _ => .error "Trying to add an already present address!"
    | none =>
        .ok { st with
                memories := st.memories.set h_ptr
                  (some { mkMemory h_ptr bytes with d_ptr := some d_ptr }) }

/-- `MemoryManager::Erase(h_ptr, free_dev_ptr)`: `NULL` is a pass-through;
an unknown address is fatal; a device allocation is freed exactly when
one exists and `free_dev_ptr` is set. -/
def Erase (st : Ledger) (h_ptr : Nat) (free_dev_ptr : Bool) :
    Except String (Nat × Ledger × List Event) :=
  if h_ptr = 0 then .ok (h_ptr, st, [])
  else
    match st.memories h_ptr with
    | none => .error "Trying to erase an unknown pointer!"
    | some mem =>
        let events :=
          match mem.d_ptr with
          | some d => if free_dev_ptr then [Event.cuMemFree d] else []
          | none => []
        .ok (h_ptr, { st with memories := st.memories.set h_ptr none }, events)

/-- `MemoryManager::GetDevicePtr(h_ptr, bytes, copy_data)`: `NULL` is a
pass-through requiring `bytes == 0`; device storage of the record's full
`base.bytes` is allocated lazily if absent; if `copy_data` is set,
`bytes` bytes are pushed host-to-device and the record's `host` boolean
is cleared. -/
def GetDevicePtr (st : Ledger) (h_ptr : Nat) (bytes : Nat) (copy_data : Bool) :
    Except String (Int × Ledger × List Event) :=
  if h_ptr = 0 then
    if bytes = 0 then .ok (0, st, [])
    else .error "Trying to access NULL with size"
  else
    match st.memories h_ptr with
    | none => .error "unordered_map::at: key not found"
    | some base =>
        match base.d_ptr with
        | some d =>
            if copy_data then
              .ok ((d : Int),
                { st with
                    memories := st.memories.set h_ptr
                      (some { base with d_ptr := some d, host := false }) },
                [Event.cuMemcpyHtoD (d : Int) (h_ptr : Int) bytes])
            else .ok ((d : Int), st, [])
        | none =>
            let d := st.nextDev
            let st1 : Ledger :=
              { st with
                  memories := st.memories.set h_ptr
                    (some { base with d_ptr := some d }),
                  nextDev := st.nextDev + base.bytes + 1 }
            if copy_data then
              .ok ((d : Int),
                { st1 with
                    memories := st1.memories.set h_ptr
                      (some { base with d_ptr := some d, host := false }) },
                [Event.cuMemAlloc h_ptr d base.bytes,
                 Event.cuMemcpyHtoD (d : Int) (h_ptr : Int) bytes])
            else .ok ((d : Int), st1, [Event.cuMemAlloc h_ptr d base.bytes])

/-- `MemoryManager::InsertAlias(base_ptr, alias_ptr, base_is_alias)`:
the offset is the pointer difference; a `NULL` base requires offset 0;
when the base is itself an alias, the call resolves through that alias
record to the ultimate base and adds its offset; a fresh alias address
gets a record with reference count 1; an existing one must agree on
base and offset (mismatch is fatal) and has its count incremented. -/
def InsertAlias (st : Ledger) (base_ptr : Nat) (alias_ptr : Nat)
    (base_is_alias : Bool) : Except String Ledger :=
  let offset0 : Int := (alias_ptr : Int) - (base_ptr : Int)
  if base_ptr = 0 then
    if offset0 = 0 then .ok st
    else .error "Trying to add alias to NULL at offset"
  else
    let resolved : Except String (Nat × Int) :=
      if base_is_alias then
        match st.aliases base_ptr with
        | none => .error "unordered_map::at: key not found"
        | some al => .ok (al.mem, offset0 + al.offset)
      else .ok (base_ptr, offset0)
    match resolved with
    | .error e => .error e
    | .ok (bp, off) =>
        match st.memories bp with
        | none => .error "unordered_map::at: key not found"
        | some _ =>
            match st.aliases alias_ptr with
            | none =>
                .ok { st with
                        aliases := st.aliases.set alias_ptr
                          (some { mem := bp, offset := off, counter := 1 }) }
            | some ex =>
                if ex.mem = bp ∧ ex.offset = off then
                  .ok { st with
                          aliases := st.aliases.set alias_ptr
                            (some { ex with counter := ex.counter + 1 }) }
                else .error "alias already exists with different base/offset!"

/-- `MemoryManager::EraseAlias(alias_ptr)`: `NULL` is a pass-through; an
unknown alias address is fatal; the reference count is decremented and
the record removed exactly when the count reaches zero.  The function
touches only the alias map — it never frees device storage. -/
def EraseAlias (st : Ledger) (alias_ptr : Nat) : Except String Ledger :=
  if alias_ptr = 0 then .ok st
  else
    match st.aliases alias_ptr with
    | none => .error "alias not found"
    | some al =>
        if al.counter - 1 = 0 then
          .ok { st with aliases := st.aliases.set alias_ptr none }
        else
          .ok { st with
                  aliases := st.aliases.set alias_ptr
                    (some { al with counter := al.counter - 1 }) }

/-- `MemoryManager::GetAliasDevicePtr(alias_ptr, bytes, copy_data)`:
`NULL` is a pass-through requiring `bytes == 0`; an unknown alias is
fatal; if the base record lacks device storage, the base record's full
`base.bytes` are allocated (the alias never owns storage of its own);
if `copy_data` is set, exactly `bytes` bytes are pushed host-to-device
into the window at the alias offset; the returned device address is
the base device pointer plus the offset. -/
def GetAliasDevicePtr (st : Ledger) (alias_ptr : Nat) (bytes : Nat)
    (copy_data : Bool) : Except String (Int × Ledger × List Event) :=
  if alias_ptr = 0 then
    if bytes = 0 then .ok (0, st, [])
    else .error "Trying to access NULL with size"
  else
    match st.aliases alias_ptr with
    | none => .error "alias not found"
    | some al =>
        match st.memories al.mem with
        | none => .error "dangling alias base pointer"
        | some base =>
            match base.d_ptr with
            | some d =>
                if copy_data then
                  .ok ((d : Int) + al.offset,
                    { st with
                        memories := st.memories.set al.mem
                          (some { base with d_ptr := some d, host := false }) },
                    [Event.cuMemcpyHtoD ((d : Int) + al.offset)
                       (alias_ptr : Int) bytes])
                else .ok ((d : Int) + al.offset, st, [])
            | none =>
                let d := st.nextDev
                let st1 : Ledger :=
                  { st with
                      memories := st.memories.set al.mem
                        (some { base with d_ptr := some d }),
                      nextDev := st.nextDev + base.bytes + 1 }
                if copy_data then
                  .ok ((d : Int) + al.offset,
                    { st1 with
                        memories := st1.memories.set al.mem
                          (some { base with d_ptr := some d, host := false }) },
                    [Event.cuMemAlloc al.mem d base.bytes,
                     Event.cuMemcpyHtoD ((d : Int) + al.offset)
                       (alias_ptr : Int) bytes])
                else
                  .ok ((d : Int) + al.offset, st1,
                    [Event.cuMemAlloc al.mem d base.bytes])

/-- Static `PullKnown(maps, ptr, bytes, copy_data)`: looks the base record
up (fatal if absent); copies device-to-host and marks the record
host-resident only when `copy_data` is set and device storage exists. -/
def PullKnown (st : Ledger) (ptr : Nat) (bytes : Nat) (copy_data : Bool) :
    Except String (Ledger × List Event) :=
  match st.memories ptr with
  | none => .error "unordered_map::at: key not found"
  | some base =>
      match base.d_ptr with
      | some d =>
          if copy_data then
            .ok ({ st with
                     memories := st.memories.set ptr
                       (some { base with host := true }) },
              [Event.cuMemcpyDtoH (ptr : Int) (d : Int) bytes])
          else .ok (st, [])
      | none => .ok (st, [])

/-- Static `PullAlias(maps, ptr, bytes, copy_data)`: looks the alias and
its base up (fatal if absent); copies the `bytes`-byte window at the
alias offset device-to-host only when `copy_data` is set and the base
has device storage.  The ledger is left unchanged. -/
def PullAlias (st : Ledger) (ptr : Nat) (bytes : Nat) (copy_data : Bool) :
    Except String (List Event) :=
  match st.aliases ptr with
  | none => .error "unordered_map::at: key not found"
  | some al =>
      match st.memories al.mem with
      | none => .error "dangling alias base pointer"
      | some base =>
          match base.d_ptr with
          | some d =>
              if copy_data then
                .ok [Event.cuMemcpyDtoH (ptr : Int) ((d : Int) + al.offset) bytes]
              else .ok []
          | none => .ok []

/-- `MemoryManager::ReadWrite_(h_ptr, mc, size, flags)`, returning the
access pointer, the updated flags, the updated ledger and the backend
events.  `HOST`: pull device-to-host first when `VALID_HOST` is unset
(through the alias path when the `ALIAS` bit is set), then set
`VALID_HOST` and clear `VALID_DEVICE`.  `HOST_32`/`HOST_64`: return the
host pointer, flags untouched.  `HOST_MMU`: fatal.  `CUDA`: set
`VALID_DEVICE`, clear `VALID_HOST`, and fetch the device pointer,
copying host-to-device exactly when `VALID_DEVICE` was unset.
`CUDA_UVM`: return the host pointer, flags untouched. -/
def ReadWrite_ (st : Ledger) (h_ptr : Nat) (mc : MemoryClass) (size : Nat)
    (flags : Flags) : Except String (Int × Flags × Ledger × List Event) :=
  match mc with
  | .HOST =>
      let fl := { flags with valid_host := true, valid_device := false }
      if flags.valid_host then .ok ((h_ptr : Int), fl, st, [])
      else if flags.is_alias then
        match PullAlias st h_ptr size true with
        | .error e => .error e
        | .ok ev => .ok ((h_ptr : Int), fl, st, ev)
      else
        match PullKnown st h_ptr size true with
        | .error e => .error e
        | .ok (st1, ev) => .ok ((h_ptr : Int), fl, st1, ev)
  | .HOST_32 => .ok ((h_ptr : Int), flags, st, [])
  | .HOST_64 => .ok ((h_ptr : Int), flags, st, [])
  | .HOST_MMU => .error "HOST_MMU"
  | .CUDA =>
      let need_copy := !flags.valid_device
      let fl := { flags with valid_device := true, valid_host := false }
      if fl.is_alias then
        match GetAliasDevicePtr st h_ptr size need_copy with
        | .error e => .error e
        | .ok (d, st1, ev) => .ok (d, fl, st1, ev)
      else
        match GetDevicePtr st h_ptr size need_copy with
        | .error e => .error e
        | .ok (d, st1, ev) => .ok (d, fl, st1, ev)
  | .CUDA_UVM => .ok ((h_ptr : Int), flags, st, [])

/-- `MemoryManager::Read_(h_ptr, mc, size, flags)`.  `HOST`: pull
device-to-host first when `VALID_HOST` is unset, then set `VALID_HOST`
and leave `VALID_DEVICE` untouched.  `HOST_32`/`HOST_64`: return the
host pointer, flags untouched.  `HOST_MMU`: fatal.  `CUDA`: set
`VALID_DEVICE` (leaving `VALID_HOST` untouched) and fetch the device
pointer, copying host-to-device exactly when `VALID_DEVICE` was unset.
`CUDA_UVM`: return the host pointer, flags untouched. -/
def Read_ (st : Ledger) (h_ptr : Nat) (mc : MemoryClass) (size : Nat)
    (flags : Flags) : Except String (Int × Flags × Ledger × List Event) :=
  match mc with
  | .HOST =>
      let fl := { flags with valid_host := true }
      if flags.valid_host then .ok ((h_ptr : Int), fl, st, [])
      else if flags.is_alias then
        match PullAlias st h_ptr size true with
        | .error e => .error e
        | .ok ev => .ok ((h_ptr : Int), fl, st, ev)
      else
        match PullKnown st h_ptr size true with
        | .error e => .error e
        | .ok (st1, ev) => .ok ((h_ptr : Int), fl, st1, ev)
  | .HOST_32 => .ok ((h_ptr : Int), flags, st, [])
  | .HOST_64 => .ok ((h_ptr : Int), flags, st, [])
  | .HOST_MMU => .error "HOST_MMU"
  | .CUDA =>
      let need_copy := !flags.valid_device
      let fl := { flags with valid_device := true }
      if fl.is_alias then
        match GetAliasDevicePtr st h_ptr size need_copy with
        | .error e => .error e
        | .ok (d, st1, ev) => .ok (d, fl, st1, ev)
      else
        match GetDevicePtr st h_ptr size need_copy with
        | .error e => .error e
        | .ok (d, st1, ev) => .ok (d, fl, st1, ev)
  | .CUDA_UVM => .ok ((h_ptr : Int), flags, st, [])

/-- `MemoryManager::Write_(h_ptr, mc, size, flags)`.  `HOST`, `HOST_32`,
`HOST_64`: set `VALID_HOST`, clear `VALID_DEVICE`, no backend call.
`HOST_MMU`: fatal.  `CUDA`: set `VALID_DEVICE`, clear `VALID_HOST`, and
fetch the device pointer with `copy_data = false` (lazy allocation may
happen, but no copy).  `CUDA_UVM`: return the host pointer, flags
untouched. -/
def Write_ (st : Ledger) (h_ptr : Nat) (mc : MemoryClass) (size : Nat)
    (flags : Flags) : Except String (Int × Flags × Ledger × List Event) :=
  match mc with
  | .HOST =>
      .ok ((h_ptr : Int),
        { flags with valid_host := true, valid_device := false }, st, [])
  | .HOST_32 =>
      .ok ((h_ptr : Int),
        { flags with valid_host := true, valid_device := false }, st, [])
  | .HOST_64 =>
      .ok ((h_ptr : Int),
        { flags with valid_host := true, valid_device := false }, st, [])
  | .HOST_MMU => .error "HOST_MMU"
  | .CUDA =>
      let fl := { flags with valid_device := true, valid_host := false }
      if fl.is_alias then
        match GetAliasDevicePtr st h_ptr size false with
        | .error e => .error e
        | .ok (d, st1, ev) => .ok (d, fl, st1, ev)
      else
        match GetDevicePtr st h_ptr size false with
        | .error e => .error e
        | .ok (d, st1, ev) => .ok (d, fl, st1, ev)
  | .CUDA_UVM => .ok ((h_ptr : Int), flags, st, [])

/-- `MemoryManager::New_(h_ptr, size, mt, flags)`: `flags` starts as
`REGISTERED | OWNS_INTERNAL`; `HOST` returns `nullptr` (the case is
handled outside, no ledger entry); `HOST_32`, `HOST_64`, `HOST_MMU` and
`CUDA_UVM` abort with a diagnostic; `CUDA` registers the host address
and adds `OWNS_HOST | OWNS_DEVICE | VALID_DEVICE`. -/
def New_ (st : Ledger) (h_ptr : Nat) (size : Nat) (mt : MemoryType) :
    Except String (Int × Flags × Ledger) :=
  let fl : Flags := { registered := true, owns_internal := true }
  match mt with
  | .HOST => .ok (0, fl, st)
  | .HOST_32 => .error "aligned host types are not implemented yet"
  | .HOST_64 => .error "aligned host types are not implemented yet"
  | .HOST_MMU => .error "HOST_MMU"
  | .CUDA =>
      match Insert st h_ptr size with
      | .error e => .error e
      | .ok (_, st1) =>
          .ok ((h_ptr : Int),
            { fl with owns_host := true, owns_device := true,
                      valid_device := true }, st1)
  | .CUDA_UVM => .error "CUDA UVM allocation is not implemented yet"

/-- The source's residency test for the source operand of
`MemoryManager::Copy_`: valid on host, and either not valid on device or
the other side is purely host-resident. -/
def srcOnHost (src_flags dst_flags : Flags) : Bool :=
  src_flags.valid_host &&
    (!src_flags.valid_device ||
      (dst_flags.valid_host && !dst_flags.valid_device))

/-- The source's residency test for the destination operand of
`MemoryManager::Copy_` (the mirror image of `srcOnHost`). -/
def dstOnHost (src_flags dst_flags : Flags) : Bool :=
  dst_flags.valid_host &&
    (!dst_flags.valid_device ||
      (src_flags.valid_host && !src_flags.valid_device))

/-- `MemoryManager::Copy_(dst_h_ptr, src_h_ptr, size, src_flags,
dst_flags)`: each side is treated as host-resident per
`srcOnHost`/`dstOnHost`; the device pointer of a device-resident side is
fetched with `copy_data = false` (through the alias path when that
side's `ALIAS` bit is set); one of the four routes host-to-host (skipped
when the pointers coincide or `size` is zero), device-to-host,
host-to-device, device-to-device runs; finally the destination flags
lose the validity bit of the space the data did not land in. -/
def Copy_ (st : Ledger) (dst_h_ptr : Nat) (src_h_ptr : Nat) (size : Nat)
    (src_flags : Flags) (dst_flags : Flags) :
    Except String (Flags × Ledger × List Event) :=
  let src_host := srcOnHost src_flags dst_flags
  let dst_host := dstOnHost src_flags dst_flags
  let fl :=
    if dst_host then { dst_flags with valid_device := false }
    else { dst_flags with valid_host := false }
  let srcSide : Except String (Int × Ledger × List Event) :=
    if src_host then .ok (0, st, [])
    else if src_flags.is_alias then GetAliasDevicePtr st src_h_ptr size false
    else GetDevicePtr st src_h_ptr size false
  match srcSide with
  | .error e => .error e
  | .ok (src_d, st1, ev1) =>
      if dst_host then
        if src_host then
          if dst_h_ptr ≠ src_h_ptr ∧ size ≠ 0 then
            .ok (fl, st1,
              ev1 ++ [Event.memcpyHtoH (dst_h_ptr : Int) (src_h_ptr : Int) size])
          else .ok (fl, st1, ev1)
        else
          .ok (fl, st1, ev1 ++ [Event.cuMemcpyDtoH (dst_h_ptr : Int) src_d size])
      else
        let dstSide : Except String (Int × Ledger × List Event) :=
          if dst_flags.is_alias then GetAliasDevicePtr st1 dst_h_ptr size false
          else GetDevicePtr st1 dst_h_ptr size false
        match dstSide with
        | .error e => .error e
        | .ok (dst_d, st2, ev2) =>
            if src_host then
              .ok (fl, st2,
                ev1 ++ ev2 ++ [Event.cuMemcpyHtoD dst_d (src_h_ptr : Int) size])
            else
              .ok (fl, st2,
                ev1 ++ ev2 ++ [Event.cuMemcpyDtoD dst_d src_d size])

/-- The three access modes of the coherence protocol. -/
inductive Mode
  | read
  | write
  | readwrite
  deriving DecidableEq, Repr

/-- One access request: a mode, a host pointer, a memory class and a byte
count. -/
structure Request where
  mode : Mode
  h_ptr : Nat
  mc : MemoryClass
  size : Nat

/-- Dispatch one request to `Read_`, `Write_` or `ReadWrite_`, keeping the
resulting flags and ledger. -/
def applyRequest (st : Ledger) (flags : Flags) (r : Request) :
    Except String (Flags × Ledger) :=
  match r.mode with
  | .read =>
      match Read_ st r.h_ptr r.mc r.size flags with
      | .error e => .error e
      | .ok (_, fl, st1, _) => .ok (fl, st1)
  | .write =>
      match Write_ st r.h_ptr r.mc r.size flags with
      | .error e => .error e
      | .ok (_, fl, st1, _) => .ok (fl, st1)
  | .readwrite =>
      match ReadWrite_ st r.h_ptr r.mc r.size flags with
      | .error e => .error e
      | .ok (_, fl, st1, _) => .ok (fl, st1)

/-- Run a sequence of access requests, threading flags and ledger;
any fatal request aborts the whole run. -/
def applyRequests (st : Ledger) (flags : Flags) :
    List Request → Except String (Flags × Ledger)
  | [] => .ok (flags, st)
  | r :: rs =>
      match applyRequest st flags r with
      | .error e => .error e
      | .ok (fl, st1) => applyRequests st1 fl rs

/-! ## Concrete ledgers used by witnesses and counterexamples -/

/-- A ledger holding one registered 4-byte buffer at host address 10,
with no device storage yet. -/
def stOne : Ledger :=
  { Ledger.empty with
      memories := PtrMap.empty.set 10 (some (mkMemory 10 4)) }

/-- `stOne` extended with one alias record at address 12: offset 2 into
the base buffer at 10, reference count 1. -/
def stOneAlias : Ledger :=
  { stOne with
      aliases := PtrMap.empty.set 12
        (some { mem := 10, offset := 2, counter := 1 }) }

/-! ## Claim theorems -/

/-- Claim C5: registering a host address that is already present in the
ledger is a fatal error: for every non-null address already in the
memory map, `Insert` (and, for a non-null device pointer,
`InsertDevice`) with that address stops with the diagnostic
"Trying to add an already present address!" instead of returning
normally or replacing the existing record. -/
theorem C5_reinsert_fatal (st : Ledger) (p b d : Nat) (m : Memory)
    (hp : p ≠ 0) (hm : st.memories p = some m) :
    Insert st p b = .error "Trying to add an already present address!" ∧
    (d ≠ 0 →
      InsertDevice st d p b =
        .error "Trying to add an already present address!") := by
  constructor
  · unfold Insert
    simp [hp, hm]
  · intro hd
    unfold InsertDevice
    simp [hp, hd, hm]

/-- Claim C5 witness: concretely, re-registering address 10 of `stOne`
fails through both entry points. -/
theorem C5_reinsert_fatal_witness :
    Insert stOne 10 8 = .error "Trying to add an already present address!" ∧
    InsertDevice stOne 3 10 8 =
      .error "Trying to add an already present address!" := by
  have h := C5_reinsert_fatal stOne 10 8 3 (mkMemory 10 4)
    (by decide) (by rfl)
  exact ⟨h.1, h.2 (by decide)⟩

/-- Claim C10: a null host address is a silent pass-through at every
public ledger operation, never the unknown-pointer fatal error:
`Insert(NULL, bytes)` returns `NULL` without creating a ledger entry and
requires `bytes == 0` (non-zero `bytes` is a failed verification),
`Erase(NULL, _)` returns `NULL` without error, `EraseAlias(NULL)`
returns without error, and `GetDevicePtr(NULL, 0, _)` returns `NULL`. -/
theorem C10_null_passthrough :
    (∀ st : Ledger, Insert st 0 0 = .ok (0, st)) ∧
    (∀ (st : Ledger) (bytes : Nat), bytes ≠ 0 →
      Insert st 0 bytes = .error "Trying to add NULL with size") ∧
    (∀ (st : Ledger) (free_dev : Bool), Erase st 0 free_dev = .ok (0, st, [])) ∧
    (∀ st : Ledger, EraseAlias st 0 = .ok st) ∧
    (∀ (st : Ledger) (c : Bool), GetDevicePtr st 0 0 c = .ok (0, st, [])) := by
  refine ⟨fun st => rfl, fun st bytes hb => ?_, fun st f => rfl,
    fun st => rfl, fun st c => rfl⟩
  unfold Insert
  simp [hb]

/-- Claim C10 witness: the null pass-throughs at the empty ledger, and
the failed verification for `Insert(NULL, 5)`. -/
theorem C10_null_passthrough_witness :
    Insert Ledger.empty 0 0 = .ok (0, Ledger.empty) ∧
    Insert Ledger.empty 0 5 = .error "Trying to add NULL with size" ∧
    Erase Ledger.empty 0 true = .ok (0, Ledger.empty, []) ∧
    EraseAlias Ledger.empty 0 = .ok Ledger.empty ∧
    GetDevicePtr Ledger.empty 0 0 true = .ok (0, Ledger.empty, []) :=
  ⟨C10_null_passthrough.1 Ledger.empty,
   C10_null_passthrough.2.1 Ledger.empty 5 (by decide),
   C10_null_passthrough.2.2.1 Ledger.empty true,
   C10_null_passthrough.2.2.2.1 Ledger.empty,
   C10_null_passthrough.2.2.2.2 Ledger.empty true⟩

/-- Claim C9 counterexample: `New_` with the host-aligned-32 tag does not
construct a registered buffer — it stops with a diagnostic. -/
theorem C9_counterexample :
    New_ Ledger.empty 7 4 .HOST_32 =
      .error "aligned host types are not implemented yet" := rfl

/-- Claim C9 (amended): of the six memory-type tags, only
`MemoryType::CUDA` makes `New_` register a buffer; `HOST` returns the
null pointer with flags `REGISTERED | OWNS_INTERNAL` and no ledger entry
(the case is handled outside `New_`); `HOST_32`, `HOST_64`, `HOST_MMU`
and `CUDA_UVM` abort with a diagnostic. -/
theorem C9_new_by_type (st : Ledger) (h s : Nat) (hh : h ≠ 0)
    (hfresh : st.memories h = none) :
    New_ st h s .HOST =
      .ok (0, { registered := true, owns_internal := true }, st) ∧
    New_ st h s .HOST_32 =
      .error "aligned host types are not implemented yet" ∧
    New_ st h s .HOST_64 =
      .error "aligned host types are not implemented yet" ∧
    New_ st h s .HOST_MMU = .error "HOST_MMU" ∧
    New_ st h s .CUDA_UVM =
      .error "CUDA UVM allocation is not implemented yet" ∧
    New_ st h s .CUDA =
      .ok ((h : Int),
        { registered := true, owns_internal := true, owns_host := true,
          owns_device := true, valid_device := true },
        { st with memories := st.memories.set h (some (mkMemory h s)) }) := by
  refine ⟨rfl, rfl, rfl, rfl, rfl, ?_⟩
  unfold New_ Insert
  simp [hh, hfresh]

/-- Claim C9 witness: the six tags at a concrete fresh address of the
empty ledger. -/
theorem C9_new_by_type_witness :
    New_ Ledger.empty 7 4 .HOST =
      .ok (0, { registered := true, owns_internal := true }, Ledger.empty) ∧
    New_ Ledger.empty 7 4 .CUDA =
      .ok (7,
        { registered := true, owns_internal := true, owns_host := true,
          owns_device := true, valid_device := true },
        { Ledger.empty with
            memories := Ledger.empty.memories.set 7 (some (mkMemory 7 4)) }) := by
  have h := C9_new_by_type Ledger.empty 7 4 (by decide) rfl
  exact ⟨h.1, h.2.2.2.2.2⟩

/-- Fetching a device pointer with `copy_data = false` produces no copy
event: only a possible lazy allocation. -/
theorem getDevicePtr_nocopy {st : Ledger} {h size : Nat} {d : Int}
    {st1 : Ledger} {ev : List Event}
    (hok : GetDevicePtr st h size false = .ok (d, st1, ev)) :
    ∀ e ∈ ev, e.routeOf = none := by
  unfold GetDevicePtr at hok
  split at hok
  · split at hok
    · simp only [Except.ok.injEq, Prod.mk.injEq] at hok
      obtain ⟨-, -, rfl⟩ := hok
      simp
    · exact absurd hok (by simp)
  · split at hok
    · exact absurd hok (by simp)
    · split at hok
      · simp only [Bool.false_eq_true, if_false, Except.ok.injEq,
          Prod.mk.injEq] at hok
        obtain ⟨-, -, rfl⟩ := hok
        simp
      · simp only [Bool.false_eq_true, if_false, Except.ok.injEq,
          Prod.mk.injEq] at hok
        obtain ⟨-, -, rfl⟩ := hok
        simp [Event.routeOf]

/-- Fetching an alias device pointer with `copy_data = false` produces no
copy event: only a possible lazy allocation of the base record. -/
theorem getAliasDevicePtr_nocopy {st : Ledger} {a size : Nat} {d : Int}
    {st1 : Ledger} {ev : List Event}
    (hok : GetAliasDevicePtr st a size false = .ok (d, st1, ev)) :
    ∀ e ∈ ev, e.routeOf = none := by
  unfold GetAliasDevicePtr at hok
  split at hok
  · split at hok
    · simp only [Except.ok.injEq, Prod.mk.injEq] at hok
      obtain ⟨-, -, rfl⟩ := hok
      simp
    · exact absurd hok (by simp)
  · split at hok
    · exact absurd hok (by simp)
    · split at hok
      · exact absurd hok (by simp)
      · split at hok
        · simp only [Bool.false_eq_true, if_false, Except.ok.injEq,
            Prod.mk.injEq] at hok
          obtain ⟨-, -, rfl⟩ := hok
          simp
        · simp only [Bool.false_eq_true, if_false, Except.ok.injEq,
            Prod.mk.injEq] at hok
          obtain ⟨-, -, rfl⟩ := hok
          simp [Event.routeOf]

/-- Claim C1 counterexample: `Write_` is not the sole access mode that
invalidates the non-requested space's copy.  A read-write request —
`ReadWrite_` with `MemoryClass::HOST` on a buffer valid in both spaces —
also clears `VALID_DEVICE`. -/
theorem C1_counterexample :
    ReadWrite_ Ledger.empty 5 .HOST 4
        { registered := true, valid_host := true, valid_device := true } =
      .ok (5,
        { registered := true, valid_host := true, valid_device := false },
        Ledger.empty, []) := rfl

/-- Claim C1 (amended): for every flags value, a write request
(`Write_`) performs no data movement between memory spaces; for a host
memory class (`HOST`, `HOST_32`, `HOST_64`) it sets `VALID_HOST` and
clears `VALID_DEVICE`, and for the device class (`CUDA`) it sets
`VALID_DEVICE` and clears `VALID_HOST`.  Write and read-write are the
only access modes that invalidate the non-requested space's copy: a
read request (`Read_`) never clears a validity bit. -/
theorem C1_write_protocol :
    (∀ (st : Ledger) (h : Nat) (mc : MemoryClass) (size : Nat)
       (flags : Flags) (r : Int) (fl : Flags) (st1 : Ledger)
       (ev : List Event),
       Write_ st h mc size flags = .ok (r, fl, st1, ev) →
       (∀ e ∈ ev, e.routeOf = none) ∧
       ((mc = .HOST ∨ mc = .HOST_32 ∨ mc = .HOST_64) →
         fl = { flags with valid_host := true, valid_device := false }) ∧
       (mc = .CUDA →
         fl = { flags with valid_device := true, valid_host := false })) ∧
    (∀ (st : Ledger) (h : Nat) (mc : MemoryClass) (size : Nat)
       (flags : Flags) (r : Int) (fl : Flags) (st1 : Ledger)
       (ev : List Event),
       Read_ st h mc size flags = .ok (r, fl, st1, ev) →
       (flags.valid_host = true → fl.valid_host = true) ∧
       (flags.valid_device = true → fl.valid_device = true)) := by
  constructor
  · intro st h mc size flags r fl st1 ev hok
    cases mc
    case HOST =>
      simp only [Write_, Except.ok.injEq, Prod.mk.injEq] at hok
      obtain ⟨-, rfl, -, rfl⟩ := hok
      simp
    case HOST_32 =>
      simp only [Write_, Except.ok.injEq, Prod.mk.injEq] at hok
      obtain ⟨-, rfl, -, rfl⟩ := hok
      simp
    case HOST_64 =>
      simp only [Write_, Except.ok.injEq, Prod.mk.injEq] at hok
      obtain ⟨-, rfl, -, rfl⟩ := hok
      simp
    case HOST_MMU => exact absurd hok (by simp [Write_])
    case CUDA =>
      simp only [Write_] at hok
      split at hok
      · cases hga : GetAliasDevicePtr st h size false with
        | error e => rw [hga] at hok; exact absurd hok (by simp)
        | ok out =>
            obtain ⟨d, st2, ev2⟩ := out
            rw [hga] at hok
            simp only [Except.ok.injEq, Prod.mk.injEq] at hok
            obtain ⟨-, rfl, -, rfl⟩ := hok
            exact ⟨getAliasDevicePtr_nocopy hga, by simp, fun _ => rfl⟩
      · cases hgd : GetDevicePtr st h size false with
        | error e => rw [hgd] at hok; exact absurd hok (by simp)
        | ok out =>
            obtain ⟨d, st2, ev2⟩ := out
            rw [hgd] at hok
            simp only [Except.ok.injEq, Prod.mk.injEq] at hok
            obtain ⟨-, rfl, -, rfl⟩ := hok
            exact ⟨getDevicePtr_nocopy hgd, by simp, fun _ => rfl⟩
    case CUDA_UVM =>
      simp only [Write_, Except.ok.injEq, Prod.mk.injEq] at hok
      obtain ⟨-, rfl, -, rfl⟩ := hok
      simp
  · intro st h mc size flags r fl st1 ev hok
    cases mc
    case HOST =>
      simp only [Read_] at hok
      split at hok
      · simp only [Except.ok.injEq, Prod.mk.injEq] at hok
        obtain ⟨-, rfl, -⟩ := hok
        simp
      · split at hok
        · cases hpa : PullAlias st h size true with
          | error e => rw [hpa] at hok; exact absurd hok (by simp)
          | ok ev2 =>
              rw [hpa] at hok
              simp only [Except.ok.injEq, Prod.mk.injEq] at hok
              obtain ⟨-, rfl, -⟩ := hok
              simp
        · cases hpk : PullKnown st h size true with
          | error e => rw [hpk] at hok; exact absurd hok (by simp)
          | ok out =>
              obtain ⟨st2, ev2⟩ := out
              rw [hpk] at hok
              simp only [Except.ok.injEq, Prod.mk.injEq] at hok
              obtain ⟨-, rfl, -⟩ := hok
              simp
    case HOST_32 =>
      simp only [Read_, Except.ok.injEq, Prod.mk.injEq] at hok
      obtain ⟨-, rfl, -⟩ := hok
      exact ⟨fun hv => hv, fun hv => hv⟩
    case HOST_64 =>
      simp only [Read_, Except.ok.injEq, Prod.mk.injEq] at hok
      obtain ⟨-, rfl, -⟩ := hok
      exact ⟨fun hv => hv, fun hv => hv⟩
    case HOST_MMU => exact absurd hok (by simp [Read_])
    case CUDA =>
      simp only [Read_] at hok
      split at hok
      · cases hga : GetAliasDevicePtr st h size (!flags.valid_device) with
        | error e => rw [hga] at hok; exact absurd hok (by simp)
        | ok out =>
            obtain ⟨d, st2, ev2⟩ := out
            rw [hga] at hok
            simp only [Except.ok.injEq, Prod.mk.injEq] at hok
            obtain ⟨-, rfl, -⟩ := hok
            simp
      · cases hgd : GetDevicePtr st h size (!flags.valid_device) with
        | error e => rw [hgd] at hok; exact absurd hok (by simp)
        | ok out =>
            obtain ⟨d, st2, ev2⟩ := out
            rw [hgd] at hok
            simp only [Except.ok.injEq, Prod.mk.injEq] at hok
            obtain ⟨-, rfl, -⟩ := hok
            simp
    case CUDA_UVM =>
      simp only [Read_, Except.ok.injEq, Prod.mk.injEq] at hok
      obtain ⟨-, rfl, -⟩ := hok
      exact ⟨fun hv => hv, fun hv => hv⟩

/-- Claim C1 witness: a concrete host write on the empty ledger — no
events, `VALID_HOST` set, `VALID_DEVICE` cleared. -/
theorem C1_write_protocol_witness :
    (∀ e ∈ ([] : List Event), Event.routeOf e = none) ∧
    ({ valid_host := true } : Flags) =
      { ({ valid_device := true } : Flags) with
          valid_host := true, valid_device := false } := by
  have h := C1_write_protocol.1 Ledger.empty 5 .HOST 4
    { valid_device := true } 5 { valid_host := true } Ledger.empty [] rfl
  exact ⟨h.1, (h.2.1 (Or.inl rfl)).symm ▸ rfl⟩

/-- Characterization of a successful `PullKnown` with `copy_data = true`:
the base record exists, and either device storage exists — one
device-to-host copy of the requested bytes, record marked host-resident
— or it does not, and nothing happens. -/
theorem pullKnown_spec {st : Ledger} {p b : Nat} {st1 : Ledger}
    {ev : List Event} (hok : PullKnown st p b true = .ok (st1, ev)) :
    ∃ base, st.memories p = some base ∧
      ((∃ d, base.d_ptr = some d ∧
          ev = [Event.cuMemcpyDtoH (p : Int) (d : Int) b] ∧
          st1 = { st with
                    memories := st.memories.set p
                      (some { base with host := true }) }) ∨
        (base.d_ptr = none ∧ ev = [] ∧ st1 = st)) := by
  unfold PullKnown at hok
  split at hok
  · exact absurd hok (by simp)
  · rename_i base hbase
    refine ⟨base, hbase, ?_⟩
    split at hok
    · rename_i d hd
      simp only [if_true, Except.ok.injEq, Prod.mk.injEq] at hok
      obtain ⟨rfl, rfl⟩ := hok
      exact Or.inl ⟨d, hd, rfl, rfl⟩
    · rename_i hd
      simp only [Except.ok.injEq, Prod.mk.injEq] at hok
      obtain ⟨rfl, rfl⟩ := hok
      exact Or.inr ⟨hd, rfl, rfl⟩

/-- Characterization of a successful `PullAlias` with `copy_data = true`:
the alias record and its base exist, and either the base has device
storage — one device-to-host copy of the window at the alias offset —
or it does not, and no copy happens.  The ledger is unchanged either
way. -/
theorem pullAlias_spec {st : Ledger} {p b : Nat} {ev : List Event}
    (hok : PullAlias st p b true = .ok ev) :
    ∃ al base, st.aliases p = some al ∧ st.memories al.mem = some base ∧
      ((∃ d, base.d_ptr = some d ∧
          ev = [Event.cuMemcpyDtoH (p : Int) ((d : Int) + al.offset) b]) ∨
        (base.d_ptr = none ∧ ev = [])) := by
  unfold PullAlias at hok
  split at hok
  · exact absurd hok (by simp)
  · rename_i al hal
    split at hok
    · exact absurd hok (by simp)
    · rename_i base hbase
      refine ⟨al, base, hal, hbase, ?_⟩
      split at hok
      · rename_i d hd
        simp only [if_true, Except.ok.injEq] at hok
        exact Or.inl ⟨d, hd, hok.symm⟩
      · rename_i hd
        simp only [Except.ok.injEq] at hok
        exact Or.inr ⟨hd, hok.symm⟩

/-- Claim C2: a host-class read request (`Read_` with
`MemoryClass::HOST`) copies device-to-host only when `VALID_HOST` is not
set, and the copy happens only if a device allocation already exists —
it never allocates device storage (device pointers and the allocation
counter are untouched, and every emitted event is a device-to-host
copy); on return `VALID_HOST` is set and `VALID_DEVICE` is left exactly
as it was. -/
theorem C2_host_read (st : Ledger) (h size : Nat) (flags : Flags)
    (r : Int) (fl : Flags) (st1 : Ledger) (ev : List Event)
    (hok : Read_ st h .HOST size flags = .ok (r, fl, st1, ev)) :
    fl = { flags with valid_host := true } ∧
    (∀ e ∈ ev, e.routeOf = some .d2h) ∧
    (flags.valid_host = true → ev = []) ∧
    st1.aliases = st.aliases ∧ st1.nextDev = st.nextDev ∧
    (∀ k, (st1.memories k).map Memory.d_ptr =
      (st.memories k).map Memory.d_ptr) ∧
    (flags.valid_host = false → flags.is_alias = false →
      ∀ m, st.memories h = some m →
        (∀ d, m.d_ptr = some d →
          ev = [Event.cuMemcpyDtoH (h : Int) (d : Int) size]) ∧
        (m.d_ptr = none → ev = [])) ∧
    (flags.valid_host = false → flags.is_alias = true →
      ∀ al base, st.aliases h = some al → st.memories al.mem = some base →
        (∀ d, base.d_ptr = some d →
          ev = [Event.cuMemcpyDtoH (h : Int) ((d : Int) + al.offset) size]) ∧
        (base.d_ptr = none → ev = [])) := by
  simp only [Read_] at hok
  split at hok
  case isTrue hvh =>
    simp only [Except.ok.injEq, Prod.mk.injEq] at hok
    obtain ⟨-, rfl, rfl, rfl⟩ := hok
    exact ⟨rfl, by simp, fun _ => rfl, rfl, rfl, fun k => rfl,
      fun hf _ => absurd hvh (by simp [hf]),
      fun hf _ => absurd hvh (by simp [hf])⟩
  case isFalse hvh =>
    split at hok
    case isTrue halias =>
      cases hpa : PullAlias st h size true with
      | error e => rw [hpa] at hok; exact absurd hok (by simp)
      | ok ev2 =>
          rw [hpa] at hok
          simp only [Except.ok.injEq, Prod.mk.injEq] at hok
          obtain ⟨-, rfl, rfl, rfl⟩ := hok
          obtain ⟨al, base, hal, hbase, hcases⟩ := pullAlias_spec hpa
          refine ⟨rfl, ?_, fun hvt => absurd hvt hvh, rfl, rfl, fun k => rfl,
            fun _ hfa => absurd halias (by simp [hfa]), ?_⟩
          · rcases hcases with ⟨d, -, rfl⟩ | ⟨-, rfl⟩ <;> simp [Event.routeOf]
          · intro _ _ al' base' hal' hbase'
            obtain rfl : al' = al := by
              rw [hal] at hal'; exact (Option.some.inj hal').symm
            obtain rfl : base' = base := by
              rw [hbase] at hbase'; exact (Option.some.inj hbase').symm
            constructor
            · intro d hd
              rcases hcases with ⟨d2, hd2, rfl⟩ | ⟨hnone, -⟩
              · rw [hd] at hd2; rw [Option.some.inj hd2]
              · rw [hd] at hnone; exact absurd hnone (by simp)
            · intro hnone
              rcases hcases with ⟨d2, hd2, -⟩ | ⟨-, rfl⟩
              · rw [hnone] at hd2; exact absurd hd2 (by simp)
              · rfl
    case isFalse halias =>
      cases hpk : PullKnown st h size true with
      | error e => rw [hpk] at hok; exact absurd hok (by simp)
      | ok out =>
          obtain ⟨st2, ev2⟩ := out
          rw [hpk] at hok
          simp only [Except.ok.injEq, Prod.mk.injEq] at hok
          obtain ⟨-, rfl, rfl, rfl⟩ := hok
          obtain ⟨base, hbase, hcases⟩ := pullKnown_spec hpk
          have haliases : st2.aliases = st.aliases := by
            rcases hcases with ⟨d, -, -, rfl⟩ | ⟨-, -, rfl⟩ <;> rfl
          have hnext : st2.nextDev = st.nextDev := by
            rcases hcases with ⟨d, -, -, rfl⟩ | ⟨-, -, rfl⟩ <;> rfl
          refine ⟨rfl, ?_, fun hvt => absurd hvt hvh, haliases, hnext, ?_,
            ?_, fun _ hfa => absurd hfa (by simp_all)⟩
          · rcases hcases with ⟨d, -, rfl, -⟩ | ⟨-, rfl, -⟩ <;>
              simp [Event.routeOf]
          · intro k
            rcases hcases with ⟨d, -, -, rfl⟩ | ⟨-, -, rfl⟩
            · by_cases hk : k = h
              · subst hk
                simp [PtrMap.set, hbase]
              · simp [PtrMap.set, hk]
            · rfl
          · intro _ _ m hm
            obtain rfl : m = base := by
              rw [hbase] at hm; exact (Option.some.inj hm).symm
            constructor
            · intro d hd
              rcases hcases with ⟨d2, hd2, rfl, -⟩ | ⟨hnone, -, -⟩
              · rw [hd] at hd2; rw [Option.some.inj hd2]
              · rw [hd] at hnone; exact absurd hnone (by simp)
            · intro hnone
              rcases hcases with ⟨d2, hd2, -, -⟩ | ⟨-, rfl, -⟩
              · rw [hnone] at hd2; exact absurd hd2 (by simp)
              · rfl

/-- Claim C2 witness: a host read on a registered buffer with no device
storage and `VALID_HOST` unset — `VALID_HOST` is set, `VALID_DEVICE`
stays clear, and no event (in particular no allocation) occurs. -/
theorem C2_host_read_witness :
    Read_ stOne 10 .HOST 4 { registered := true } =
      .ok (10, { registered := true, valid_host := true }, stOne, []) ∧
    (∀ e ∈ ([] : List Event), e.routeOf = some .d2h) :=
  ⟨rfl,
   (C2_host_read stOne 10 4 { registered := true } 10
     { registered := true, valid_host := true } stOne [] rfl).2.1⟩

/-- Reading a `PtrMap` at the key just set. -/
theorem PtrMap.set_self {α : Type} (m : PtrMap α) (k : Nat) (v : Option α) :
    m.set k v k = v := by
  simp [PtrMap.set]

/-- Reading a `PtrMap` at a different key than the one set. -/
theorem PtrMap.set_other {α : Type} (m : PtrMap α) (k q : Nat) (v : Option α)
    (h : q ≠ k) : m.set k v q = m q := by
  simp [PtrMap.set, h]

/-- Claim C7: `InsertAlias` resolves an alias-of-an-alias to the ultimate
base record with the summed byte offset; when an alias record already
exists at the requested alias address, it verifies that the existing
record points at the same base and the same offset and increments its
reference count, and stops with a fatal error if either the base or the
offset differs. -/
theorem C7_insert_alias_resolution (st : Ledger) (bp ap : Nat)
    (al : AliasRec) (m : Memory) (hbp : bp ≠ 0)
    (hal : st.aliases bp = some al) (hm : st.memories al.mem = some m) :
    (st.aliases ap = none →
      InsertAlias st bp ap true =
        .ok { st with aliases := st.aliases.set ap (some ⟨al.mem, ((ap : Int) - (bp : Int)) + al.offset, 1⟩) }) ∧
    (∀ ex, st.aliases ap = some ex → ex.mem = al.mem →
      ex.offset = ((ap : Int) - (bp : Int)) + al.offset →
      InsertAlias st bp ap true =
        .ok { st with aliases := st.aliases.set ap (some { ex with counter := ex.counter + 1 }) }) ∧
    (∀ ex, st.aliases ap = some ex →
      ¬(ex.mem = al.mem ∧
          ex.offset = ((ap : Int) - (bp : Int)) + al.offset) →
      InsertAlias st bp ap true =
        .error "alias already exists with different base/offset!") := by
  refine ⟨fun hap => ?_, fun ex hap h1 h2 => ?_, fun ex hap hne => ?_⟩
  · simp [InsertAlias, hbp, hal, hm, hap]
  · simp [InsertAlias, hbp, hal, hm, hap, h1, h2]
  · simp only [InsertAlias, if_neg hbp, if_true, hal, hm, hap]
    rw [if_neg hne]

/-- Claim C7 witness: inserting an alias of the existing alias (address
12, offset 2 into base 10) at address 15 resolves to base 10 with summed
offset `(15 - 12) + 2 = 5`. -/
theorem C7_insert_alias_resolution_witness :
    InsertAlias stOneAlias 12 15 true =
      .ok { stOneAlias with aliases := stOneAlias.aliases.set 15 (some ⟨10, 5, 1⟩) } := by
  have h := (C7_insert_alias_resolution stOneAlias 12 15
    { mem := 10, offset := 2, counter := 1 } (mkMemory 10 4)
    (by decide) rfl rfl).1 rfl
  simpa using h

/-- Calling `InsertAlias(base, alias, false)` `n` times in a row. -/
def insertAliasN (b a : Nat) : Nat → Ledger → Except String Ledger
  | 0, st => .ok st
  | n + 1, st =>
      match InsertAlias st b a false with
      | .error e => .error e
      | .ok st1 => insertAliasN b a n st1

/-- Calling `EraseAlias(alias)` `n` times in a row. -/
def eraseAliasN (a : Nat) : Nat → Ledger → Except String Ledger
  | 0, st => .ok st
  | n + 1, st =>
      match EraseAlias st a with
      | .error e => .error e
      | .ok st1 => eraseAliasN a n st1

/-- A fresh `InsertAlias` on a registered base creates a record with
reference count 1. -/
theorem insertAlias_fresh {st : Ledger} {b a : Nat} {m : Memory}
    (hb : b ≠ 0) (hm : st.memories b = some m) (ha : st.aliases a = none) :
    InsertAlias st b a false =
      .ok { st with aliases := st.aliases.set a (some ⟨b, (a : Int) - (b : Int), 1⟩) } := by
  simp [InsertAlias, hb, hm, ha]

/-- A repeated `InsertAlias` with the same base and offset increments the
reference count. -/
theorem insertAlias_repeat {st : Ledger} {b a : Nat} {m : Memory} {c : Nat}
    (hb : b ≠ 0) (hm : st.memories b = some m)
    (ha : st.aliases a = some ⟨b, (a : Int) - (b : Int), c⟩) :
    InsertAlias st b a false =
      .ok { st with aliases := st.aliases.set a (some ⟨b, (a : Int) - (b : Int), c + 1⟩) } := by
  simp [InsertAlias, hb, hm, ha]

/-- Iterating `InsertAlias` on an existing record adds the iteration
count to the reference count, leaving the memory map and all other
alias entries untouched. -/
theorem insertAliasN_grow {b a : Nat} {m : Memory} (hb : b ≠ 0) :
    ∀ (n : Nat) (st : Ledger) (c : Nat), st.memories b = some m →
      st.aliases a = some ⟨b, (a : Int) - (b : Int), c⟩ →
      ∃ st', insertAliasN b a n st = .ok st' ∧
        st'.aliases a = some ⟨b, (a : Int) - (b : Int), c + n⟩ ∧
        st'.memories = st.memories ∧
        (∀ k, k ≠ a → st'.aliases k = st.aliases k) := by
  intro n
  induction n with
  | zero => exact fun st c hm ha => ⟨st, rfl, ha, rfl, fun k _ => rfl⟩
  | succ n ih =>
      intro st c hm ha
      obtain ⟨st', hrun, ha', hmem', hoth'⟩ :=
        ih { st with aliases := st.aliases.set a (some ⟨b, (a : Int) - (b : Int), c + 1⟩) }
          (c + 1) hm (PtrMap.set_self _ _ _)
      refine ⟨st', ?_, ?_, hmem', fun k hk => ?_⟩
      · show insertAliasN b a (n + 1) st = .ok st'
        unfold insertAliasN
        rw [insertAlias_repeat hb hm ha]
        exact hrun
      · rw [ha']
        have : c + 1 + n = c + (n + 1) := by omega
        rw [this]
      · rw [hoth' k hk]
        exact PtrMap.set_other _ _ _ _ hk

/-- Erasing `k` times while the reference count stays positive just
decrements it, leaving the memory map and all other alias entries
untouched. -/
theorem eraseAliasN_decrements {a : Nat} {b : Nat} {off : Int} (ha0 : a ≠ 0) :
    ∀ (k : Nat) (st : Ledger) (c : Nat), k < c →
      st.aliases a = some ⟨b, off, c⟩ →
      ∃ st', eraseAliasN a k st = .ok st' ∧
        st'.aliases a = some ⟨b, off, c - k⟩ ∧
        st'.memories = st.memories ∧
        (∀ q, q ≠ a → st'.aliases q = st.aliases q) := by
  intro k
  induction k with
  | zero => exact fun st c _ ha => ⟨st, rfl, by simpa using ha, rfl, fun q _ => rfl⟩
  | succ k ih =>
      intro st c hk ha
      have hc1 : ¬(c - 1 = 0) := by omega
      have hstep : EraseAlias st a =
          .ok { st with aliases := st.aliases.set a (some ⟨b, off, c - 1⟩) } := by
        simp only [EraseAlias, if_neg ha0, ha]
        rw [if_neg hc1]
      obtain ⟨st', hrun, ha', hmem', hoth'⟩ :=
        ih { st with aliases := st.aliases.set a (some ⟨b, off, c - 1⟩) }
          (c - 1) (by omega) (PtrMap.set_self _ _ _)
      refine ⟨st', ?_, ?_, hmem', fun q hq => ?_⟩
      · show eraseAliasN a (k + 1) st = .ok st'
        unfold eraseAliasN
        rw [hstep]
        exact hrun
      · rw [ha']
        have : c - 1 - k = c - (k + 1) := by omega
        rw [this]
      · rw [hoth' q hq]
        exact PtrMap.set_other _ _ _ _ hq

/-- Erasing exactly as many times as the reference count removes the
record (on the last erase), leaving the memory map untouched. -/
theorem eraseAliasN_full {a : Nat} {b : Nat} {off : Int} (ha0 : a ≠ 0) :
    ∀ (n : Nat) (st : Ledger), st.aliases a = some ⟨b, off, n + 1⟩ →
      ∃ st', eraseAliasN a (n + 1) st = .ok st' ∧
        st'.aliases a = none ∧
        st'.memories = st.memories := by
  intro n
  induction n with
  | zero =>
      intro st ha
      refine ⟨{ st with aliases := st.aliases.set a none }, ?_,
        PtrMap.set_self _ _ _, rfl⟩
      unfold eraseAliasN
      simp only [EraseAlias, if_neg ha0, ha]
      rfl
  | succ n ih =>
      intro st ha
      have hstep : EraseAlias st a =
          .ok { st with aliases := st.aliases.set a (some ⟨b, off, n + 1⟩) } := by
        simp only [EraseAlias, if_neg ha0, ha]
        rw [if_neg (by omega : ¬(n + 1 + 1 - 1 = 0))]
        rfl
      obtain ⟨st', hrun, ha', hmem'⟩ :=
        ih { st with aliases := st.aliases.set a (some ⟨b, off, n + 1⟩) }
          (PtrMap.set_self _ _ _)
      refine ⟨st', ?_, ha', hmem'⟩
      show eraseAliasN a (n + 1 + 1) st = .ok st'
      unfold eraseAliasN
      rw [hstep]
      exact hrun

/-- Claim C6: for every registered base buffer and every alias address
not yet in the ledger, calling `InsertAlias` `N ≥ 1` times at that alias
address (same base and offset) followed by `EraseAlias` `N` times leaves
no alias entry, the record being removed exactly on the `N`-th erase
(the reference count reaching zero) and not earlier — after `k < N`
erases the record is still present with count `N - k` — and no erase
touches the memory map, hence none frees the base buffer's device
storage. -/
theorem C6_alias_refcount (st : Ledger) (b a : Nat) (m : Memory) (N : Nat)
    (hb : b ≠ 0) (ha0 : a ≠ 0) (hm : st.memories b = some m)
    (ha : st.aliases a = none) (hN : 1 ≤ N) :
    ∃ stI, insertAliasN b a N st = .ok stI ∧
      stI.aliases a = some ⟨b, (a : Int) - (b : Int), N⟩ ∧
      stI.memories = st.memories ∧
      (∀ k, k < N → ∃ stE, eraseAliasN a k stI = .ok stE ∧
        stE.aliases a = some ⟨b, (a : Int) - (b : Int), N - k⟩ ∧
        stE.memories = st.memories) ∧
      (∃ stF, eraseAliasN a N stI = .ok stF ∧ stF.aliases a = none ∧
        stF.memories = st.memories) := by
  obtain ⟨n, rfl⟩ : ∃ n, N = n + 1 := ⟨N - 1, by omega⟩
  have hfirst := insertAlias_fresh hb hm ha
  obtain ⟨stI, hrunI, haI, hmemI, -⟩ :=
    insertAliasN_grow hb n
      { st with aliases := st.aliases.set a (some ⟨b, (a : Int) - (b : Int), 1⟩) }
      1 hm (PtrMap.set_self _ _ _)
  have hrunN : insertAliasN b a (n + 1) st = .ok stI := by
    unfold insertAliasN
    rw [hfirst]
    exact hrunI
  have haIN : stI.aliases a = some ⟨b, (a : Int) - (b : Int), n + 1⟩ := by
    rw [haI]
    have : 1 + n = n + 1 := by omega
    rw [this]
  refine ⟨stI, hrunN, haIN, hmemI, fun k hk => ?_, ?_⟩
  · obtain ⟨stE, hrunE, haE, hmemE, -⟩ :=
      eraseAliasN_decrements ha0 k stI (n + 1) hk haIN
    exact ⟨stE, hrunE, haE, hmemE.trans hmemI⟩
  · obtain ⟨stF, hrunF, haF, hmemF⟩ := eraseAliasN_full ha0 n stI haIN
    exact ⟨stF, hrunF, haF, hmemF.trans hmemI⟩

/-- Claim C6 witness: inserting the alias at address 12 (offset 2 into
base 10) twice and erasing twice on the concrete one-buffer ledger —
present with count 1 after the first erase, gone after the second,
memory map intact. -/
theorem C6_alias_refcount_witness :
    ∃ stI, insertAliasN 10 12 2 stOne = .ok stI ∧
      stI.aliases 12 = some ⟨10, 2, 2⟩ ∧
      stI.memories = stOne.memories ∧
      (∀ k, k < 2 → ∃ stE, eraseAliasN 12 k stI = .ok stE ∧
        stE.aliases 12 = some ⟨10, 2, 2 - k⟩ ∧
        stE.memories = stOne.memories) ∧
      (∃ stF, eraseAliasN 12 2 stI = .ok stF ∧ stF.aliases 12 = none ∧
        stF.memories = stOne.memories) := by
  have h := C6_alias_refcount stOne 10 12 (mkMemory 10 4) 2
    (by decide) (by decide) rfl rfl (by decide)
  simpa using h

/-- Two successive writes of a `PtrMap` at the same key collapse to the
last one. -/
theorem PtrMap.set_set {α : Type} (m : PtrMap α) (k : Nat) (v w : Option α) :
    (m.set k v).set k w = m.set k w := by
  funext q
  by_cases hq : q = k
  · subst hq
    simp [PtrMap.set]
  · simp [PtrMap.set, hq]

/-- Claim C8: for every alias, device-side access (`GetAliasDevicePtr`)
and host pulls (`PullAlias`) operate only through the base record: the
returned device address is always the base record's device pointer plus
the alias offset, any lazy device allocation is of the base record's
full `base.bytes` and is recorded in the base record (the alias map is
untouched — never a separate allocation keyed to the alias), and a copy
of `bytes` bytes for the alias moves exactly the `bytes`-byte window
starting at the offset, not the full base buffer. -/
theorem C8_alias_device_window (st : Ledger) (a bytes : Nat)
    (al : AliasRec) (base : Memory) (ha0 : a ≠ 0)
    (hal : st.aliases a = some al) (hbase : st.memories al.mem = some base) :
    (∀ d, base.d_ptr = some d →
      GetAliasDevicePtr st a bytes false = .ok ((d : Int) + al.offset, st, []) ∧
      GetAliasDevicePtr st a bytes true =
        .ok ((d : Int) + al.offset,
          { st with memories := st.memories.set al.mem (some { base with d_ptr := some d, host := false }) },
          [Event.cuMemcpyHtoD ((d : Int) + al.offset) (a : Int) bytes])) ∧
    (base.d_ptr = none →
      GetAliasDevicePtr st a bytes false =
        .ok ((st.nextDev : Int) + al.offset,
          { st with memories := st.memories.set al.mem (some { base with d_ptr := some st.nextDev }),
                    nextDev := st.nextDev + base.bytes + 1 },
          [Event.cuMemAlloc al.mem st.nextDev base.bytes]) ∧
      GetAliasDevicePtr st a bytes true =
        .ok ((st.nextDev : Int) + al.offset,
          { st with memories := st.memories.set al.mem (some { base with d_ptr := some st.nextDev, host := false }),
                    nextDev := st.nextDev + base.bytes + 1 },
          [Event.cuMemAlloc al.mem st.nextDev base.bytes,
           Event.cuMemcpyHtoD ((st.nextDev : Int) + al.offset) (a : Int) bytes])) ∧
    (∀ d, base.d_ptr = some d →
      PullAlias st a bytes true =
        .ok [Event.cuMemcpyDtoH (a : Int) ((d : Int) + al.offset) bytes]) := by
  refine ⟨fun d hd => ⟨?_, ?_⟩, fun hd => ⟨?_, ?_⟩, fun d hd => ?_⟩
  · simp [GetAliasDevicePtr, ha0, hal, hbase, hd]
  · simp [GetAliasDevicePtr, ha0, hal, hbase, hd]
  · simp [GetAliasDevicePtr, ha0, hal, hbase, hd]
  · simp only [GetAliasDevicePtr, if_neg ha0, hal, hbase, hd, if_true]
    rw [PtrMap.set_set]
  · simp [PullAlias, hal, hbase, hd]

/-- Claim C8 witness: reading the device pointer of the alias at address
12 (offset 2) on the concrete one-buffer ledger allocates the base's
full 4 bytes under the base key 10 and returns the base device pointer
plus the offset. -/
theorem C8_alias_device_window_witness :
    GetAliasDevicePtr stOneAlias 12 3 false =
      .ok (3,
        { stOneAlias with memories := stOneAlias.memories.set 10 (some { mkMemory 10 4 with d_ptr := some 1 }),
                          nextDev := 6 },
        [Event.cuMemAlloc 10 1 4]) := by
  have h := ((C8_alias_device_window stOneAlias 12 3 ⟨10, 2, 1⟩
    (mkMemory 10 4) (by decide) rfl rfl).2.1 rfl).1
  simpa using h

/-- Following the spec's words for the cross-buffer copy: "if a side is
valid on host AND (not valid on device, or the *other* side is itself
purely host-resident), treat it as host; otherwise device", where
"purely host-resident" is `VALID_HOST` and not `VALID_DEVICE`. -/
def specSideOnHost (own other : Flags) : Bool :=
  own.valid_host &&
    (!own.valid_device || (other.valid_host && !other.valid_device))

/-- A device-pointer fetch with `copy_data = false` — through either the
alias or the plain path — produces no copy event. -/
theorem fetch_nocopy_events {st : Ledger} {isal : Bool} {p size : Nat}
    {d : Int} {st1 : Ledger} {ev : List Event}
    (hok : (if isal = true then GetAliasDevicePtr st p size false
            else GetDevicePtr st p size false) = .ok (d, st1, ev)) :
    ∀ e ∈ ev, e.routeOf = none := by
  split at hok
  · exact getAliasDevicePtr_nocopy hok
  · exact getDevicePtr_nocopy hok

/-- Claim C4 counterexample: with a destination whose flags carry no
validity bit at all, `Copy_` lands the data on the device (the final
event is a host-to-device copy into the freshly allocated destination)
yet the destination's validity flags are NOT collapsed to the device
space — both bits stay clear.  So the collapse clause fails for flag
pairs violating the validity invariant. -/
theorem C4_counterexample :
    (Copy_ stOne 10 20 4 { valid_host := true } {}).toOption.map
        (fun x => (x.1, x.2.2)) =
      some (({} : Flags),
        [Event.cuMemAlloc 10 1 4, Event.cuMemcpyHtoD 1 20 4]) ∧
    ({} : Flags).valid_host = false ∧ ({} : Flags).valid_device = false :=
  ⟨rfl, rfl, rfl⟩

/-- Claim C4 (amended): for every pair of source and destination flag
values, `Copy_` treats a side as host-resident iff that side has
`VALID_HOST` and (it lacks `VALID_DEVICE`, or the other side has
`VALID_HOST` and lacks `VALID_DEVICE`), picking one of the four routes
host-to-host, host-to-device, device-to-host, device-to-device
accordingly for every copy event it emits; afterwards the destination's
flags lose the validity bit of the space the data did not land in, and
— for every destination whose flags satisfy the validity invariant
(at least one validity bit set) — they are thereby collapsed to exactly
the single space where the data landed. -/
theorem C4_copy_routes (st : Ledger) (dp sp size : Nat) (sf df : Flags)
    (fl : Flags) (st1 : Ledger) (ev : List Event)
    (hok : Copy_ st dp sp size sf df = .ok (fl, st1, ev)) :
    srcOnHost sf df = specSideOnHost sf df ∧
    dstOnHost sf df = specSideOnHost df sf ∧
    (∀ e ∈ ev, ∀ r, e.routeOf = some r →
      r = (if dstOnHost sf df = true then
             (if srcOnHost sf df = true then Route.h2h else Route.d2h)
           else
             (if srcOnHost sf df = true then Route.h2d else Route.d2d))) ∧
    (dstOnHost sf df = true → fl = { df with valid_device := false }) ∧
    (dstOnHost sf df = false → fl = { df with valid_host := false }) ∧
    ((df.valid_host = true ∨ df.valid_device = true) →
      (dstOnHost sf df = true → fl.valid_host = true ∧ fl.valid_device = false) ∧
      (dstOnHost sf df = false → fl.valid_device = true ∧ fl.valid_host = false)) := by
  have hcore : (∀ e ∈ ev, ∀ r, e.routeOf = some r →
      r = (if dstOnHost sf df = true then
             (if srcOnHost sf df = true then Route.h2h else Route.d2h)
           else
             (if srcOnHost sf df = true then Route.h2d else Route.d2d))) ∧
      fl = (if dstOnHost sf df = true then { df with valid_device := false }
            else { df with valid_host := false }) := by
    cases hdh : dstOnHost sf df <;> cases hsh : srcOnHost sf df <;>
      simp only [Copy_, hdh, hsh, Bool.false_eq_true, if_false, if_true,
        reduceCtorEq] at hok
    case false.false =>
      split at hok
      · exact absurd hok (by simp)
      · rename_i heq
        split at hok
        · exact absurd hok (by simp)
        · rename_i heq2
          simp only [Except.ok.injEq, Prod.mk.injEq] at hok
          obtain ⟨rfl, -, rfl⟩ := hok
          refine ⟨?_, by simp⟩
          intro e he r hr
          simp only [List.append_assoc, List.mem_append,
            List.mem_singleton] at he
          rcases he with h1 | h2 | h3
          · rw [fetch_nocopy_events heq e h1] at hr
            exact absurd hr (by simp)
          · rw [fetch_nocopy_events heq2 e h2] at hr
            exact absurd hr (by simp)
          · subst h3
            simp only [Event.routeOf, Option.some.injEq] at hr
            simp [hr.symm]
    case false.true =>
      split at hok
      · exact absurd hok (by simp)
      · rename_i heq2
        simp only [Except.ok.injEq, Prod.mk.injEq] at hok
        obtain ⟨rfl, -, rfl⟩ := hok
        refine ⟨?_, by simp⟩
        intro e he r hr
        simp only [List.nil_append, List.mem_append,
          List.mem_singleton] at he
        rcases he with h2 | h3
        · rw [fetch_nocopy_events heq2 e h2] at hr
          exact absurd hr (by simp)
        · subst h3
          simp only [Event.routeOf, Option.some.injEq] at hr
          simp [hr.symm]
    case true.false =>
      split at hok
      · exact absurd hok (by simp)
      · rename_i heq
        simp only [Except.ok.injEq, Prod.mk.injEq] at hok
        obtain ⟨rfl, -, rfl⟩ := hok
        refine ⟨?_, by simp⟩
        intro e he r hr
        simp only [List.mem_append, List.mem_singleton] at he
        rcases he with h1 | h3
        · rw [fetch_nocopy_events heq e h1] at hr
          exact absurd hr (by simp)
        · subst h3
          simp only [Event.routeOf, Option.some.injEq] at hr
          simp [hr.symm]
    case true.true =>
      split at hok
      · simp only [Except.ok.injEq, Prod.mk.injEq] at hok
        obtain ⟨rfl, -, rfl⟩ := hok
        refine ⟨?_, by simp⟩
        intro e he r hr
        simp only [List.nil_append, List.mem_singleton] at he
        subst he
        simp only [Event.routeOf, Option.some.injEq] at hr
        simp [hr.symm]
      · simp only [Except.ok.injEq, Prod.mk.injEq] at hok
        obtain ⟨rfl, -, rfl⟩ := hok
        exact ⟨by simp, by simp⟩
  refine ⟨rfl, rfl, hcore.1, ?_, ?_, ?_⟩
  · intro hdh
    rw [hcore.2, if_pos hdh]
  · intro hdh
    rw [hcore.2, if_neg (by simp [hdh])]
  · intro hinv
    constructor
    · intro hdh
      have hvh : df.valid_host = true := by
        have := hdh
        simp only [dstOnHost, Bool.and_eq_true] at this
        exact this.1
      rw [hcore.2, if_pos hdh]
      exact ⟨hvh, rfl⟩
    · intro hdh
      have hvd : df.valid_device = true := by
        rcases hinv with hvh | hvd
        · by_contra hvd
          rw [Bool.not_eq_true] at hvd
          rw [dstOnHost, hvh, hvd] at hdh
          simp at hdh
        · exact hvd
      rw [hcore.2, if_neg (by simp [hdh])]
      exact ⟨hvd, rfl⟩

/-- Claim C4 witness: the concrete host-to-device copy of the
counterexample's route side — source purely host-valid, destination
device-valid only — where both the route and the collapse hold. -/
theorem C4_copy_routes_witness :
    ∃ out, Copy_ stOne 10 20 4 { valid_host := true } { valid_device := true } =
        .ok out ∧
      (out.1.valid_device = true ∧ out.1.valid_host = false) := by
  cases hrun : Copy_ stOne 10 20 4 { valid_host := true } { valid_device := true } with
  | error e => exact absurd hrun (by simp [Copy_, srcOnHost, dstOnHost, stOne,
      GetDevicePtr, Ledger.empty, PtrMap.set, PtrMap.empty, mkMemory])
  | ok out =>
      obtain ⟨fl, st1, ev⟩ := out
      have h := C4_copy_routes stOne 10 20 4 { valid_host := true }
        { valid_device := true } fl st1 ev hrun
      exact ⟨(fl, st1, ev), rfl,
        ((h.2.2.2.2.2 (Or.inr rfl)).2 (by rfl))⟩

/-- A successful `Read_` either leaves the flags unchanged or sets a
validity bit. -/
theorem Read_flags_cases {st : Ledger} {h : Nat} {mc : MemoryClass}
    {size : Nat} {flags : Flags} {r : Int} {fl : Flags} {st1 : Ledger}
    {ev : List Event} (hok : Read_ st h mc size flags = .ok (r, fl, st1, ev)) :
    fl = flags ∨ fl.valid_host = true ∨ fl.valid_device = true := by
  cases mc <;> simp only [Read_] at hok
  repeat' split at hok
  all_goals try simp only [Except.ok.injEq, Prod.mk.injEq] at hok
  all_goals
    first
    | (obtain ⟨-, rfl, -⟩ := hok
       simp)
    | simp at hok

/-- A successful `Write_` either leaves the flags unchanged or sets a
validity bit. -/
theorem Write_flags_cases {st : Ledger} {h : Nat} {mc : MemoryClass}
    {size : Nat} {flags : Flags} {r : Int} {fl : Flags} {st1 : Ledger}
    {ev : List Event} (hok : Write_ st h mc size flags = .ok (r, fl, st1, ev)) :
    fl = flags ∨ fl.valid_host = true ∨ fl.valid_device = true := by
  cases mc <;> simp only [Write_] at hok
  repeat' split at hok
  all_goals try simp only [Except.ok.injEq, Prod.mk.injEq] at hok
  all_goals
    first
    | (obtain ⟨-, rfl, -⟩ := hok
       simp)
    | simp at hok

/-- A successful `ReadWrite_` either leaves the flags unchanged or sets a
validity bit. -/
theorem ReadWrite_flags_cases {st : Ledger} {h : Nat} {mc : MemoryClass}
    {size : Nat} {flags : Flags} {r : Int} {fl : Flags} {st1 : Ledger}
    {ev : List Event}
    (hok : ReadWrite_ st h mc size flags = .ok (r, fl, st1, ev)) :
    fl = flags ∨ fl.valid_host = true ∨ fl.valid_device = true := by
  cases mc <;> simp only [ReadWrite_] at hok
  repeat' split at hok
  all_goals try simp only [Except.ok.injEq, Prod.mk.injEq] at hok
  all_goals
    first
    | (obtain ⟨-, rfl, -⟩ := hok
       simp)
    | simp at hok

/-- One access request either leaves the flags unchanged or sets a
validity bit: no successful request clears both validity bits. -/
theorem applyRequest_validity {st : Ledger} {flags : Flags} {r : Request}
    {fl : Flags} {st1 : Ledger}
    (hok : applyRequest st flags r = .ok (fl, st1)) :
    fl = flags ∨ fl.valid_host = true ∨ fl.valid_device = true := by
  obtain ⟨mo, hp, mc, sz⟩ := r
  cases mo <;> simp only [applyRequest] at hok
  case read =>
    cases hr : Read_ st hp mc sz flags with
    | error e => rw [hr] at hok; exact absurd hok (by simp)
    | ok out =>
        obtain ⟨rr, flr, str, evr⟩ := out
        rw [hr] at hok
        simp only [Except.ok.injEq, Prod.mk.injEq] at hok
        obtain ⟨rfl, -⟩ := hok
        exact Read_flags_cases hr
  case write =>
    cases hr : Write_ st hp mc sz flags with
    | error e => rw [hr] at hok; exact absurd hok (by simp)
    | ok out =>
        obtain ⟨rr, flr, str, evr⟩ := out
        rw [hr] at hok
        simp only [Except.ok.injEq, Prod.mk.injEq] at hok
        obtain ⟨rfl, -⟩ := hok
        exact Write_flags_cases hr
  case readwrite =>
    cases hr : ReadWrite_ st hp mc sz flags with
    | error e => rw [hr] at hok; exact absurd hok (by simp)
    | ok out =>
        obtain ⟨rr, flr, str, evr⟩ := out
        rw [hr] at hok
        simp only [Except.ok.injEq, Prod.mk.injEq] at hok
        obtain ⟨rfl, -⟩ := hok
        exact ReadWrite_flags_cases hr

/-- Claim C3: for every flags value in which at least one of
`VALID_HOST`/`VALID_DEVICE` is set, after any sequence of read
(`Read_`), write (`Write_`) and read-write (`ReadWrite_`) requests that
return normally, the resulting flags still have at least one of
`VALID_HOST`/`VALID_DEVICE` set. -/
theorem C3_validity_invariant (rs : List Request) (st : Ledger)
    (flags : Flags) (fl : Flags) (st1 : Ledger)
    (hv : flags.valid_host = true ∨ flags.valid_device = true)
    (hok : applyRequests st flags rs = .ok (fl, st1)) :
    fl.valid_host = true ∨ fl.valid_device = true := by
  induction rs generalizing st flags with
  | nil =>
      simp only [applyRequests, Except.ok.injEq, Prod.mk.injEq] at hok
      obtain ⟨rfl, -⟩ := hok
      exact hv
  | cons r rs ih =>
      simp only [applyRequests] at hok
      cases hstep : applyRequest st flags r with
      | error e => rw [hstep] at hok; exact absurd hok (by simp)
      | ok out =>
          obtain ⟨fl2, st2⟩ := out
          rw [hstep] at hok
          rcases applyRequest_validity hstep with heq | hvh | hvd
          · exact ih st2 fl2 (by rw [heq]; exact hv) hok
          · exact ih st2 fl2 (Or.inl hvh) hok
          · exact ih st2 fl2 (Or.inr hvd) hok

/-- Claim C3 witness: a concrete device write followed by a host read on
the one-buffer ledger keeps a validity bit set throughout. -/
theorem C3_validity_invariant_witness :
    ∃ stF, applyRequests stOne { registered := true, valid_host := true }
        [⟨.write, 10, .CUDA, 4⟩, ⟨.read, 10, .HOST, 4⟩] =
      .ok ({ registered := true, valid_host := true, valid_device := true }, stF) ∧
      (({ registered := true, valid_host := true, valid_device := true } : Flags).valid_host = true ∨
        ({ registered := true, valid_host := true, valid_device := true } : Flags).valid_device = true) := by
  refine ⟨_, rfl, ?_⟩
  exact C3_validity_invariant
    [⟨.write, 10, .CUDA, 4⟩, ⟨.read, 10, .HOST, 4⟩] stOne
    { registered := true, valid_host := true } _ _ (Or.inl rfl) rfl

end MemManager
